import Mathlib

/-!
Shallow embedding of `src/logger.py` (class `CustomerLogger`): a
process-wide singleton registry of named loggers with per-name info/error
file handlers, and the `trace_call` decorator whose `wrapper` logs
arguments, duration, result and exceptions of each wrapped call.

The Python `logging` machinery is modelled only as far as the source uses
it: levels with their numeric values, handlers with a minimum level, the
fixed line formatter, and the rule that a record reaches a handler exactly
when its level is at least both the logger's current level and the
handler's level.
-/

namespace CustomerLogger

/-- Logging levels used by the source (`logging.DEBUG/INFO/ERROR`). -/
inductive Level
  | debug
  | info
  | error
deriving DecidableEq, Repr

/-- Numeric values of the levels, as in Python's `logging` module. -/
def Level.toNat : Level → Nat
  | .debug => 10
  | .info => 20
  | .error => 40

/-- The `%(levelname)s` text of each level. -/
def Level.levelname : Level → String
  | .debug => "DEBUG"
  | .info => "INFO"
  | .error => "ERROR"

/-- An output destination: a `logging.FileHandler` path or the
`logging.StreamHandler(sys.stdout)` console. -/
inductive Sink
  | file (path : String)
  | console
deriving DecidableEq, Repr

/-- A handler: a sink together with the minimum level set by `setLevel`. -/
structure Handler where
  sink : Sink
  level : Level
deriving DecidableEq, Repr

/-- A named logger with its attached handlers (`logger.addHandler`). -/
structure Logger where
  name : String
  handlers : List Handler
deriving DecidableEq, Repr

/-- The process-wide state touched by `CustomerLogger.__new__`:
`cls._instance is None` (tracked as `instanceCreated`) and
`cls._logger_list`. -/
structure RegistryState where
  instanceCreated : Bool
  loggerList : List (String × Logger)
deriving DecidableEq, Repr

/-- The state of a fresh process: no instance, empty `_logger_list`. -/
def freshState : RegistryState := ⟨false, []⟩

/-- The handlers attached for one name in `__new__` (lines 32-48):
info file handler, error file handler, then the console handler when
`console` is true. -/
def mkHandlers (name : String) (console : Bool) : List Handler :=
  [⟨Sink.file ("log/" ++ name ++ "_info.log"), Level.info⟩,
   ⟨Sink.file ("log/" ++ name ++ "_error.log"), Level.error⟩] ++
  (if console then [⟨Sink.console, Level.debug⟩] else [])

/-- `dict.update({n: lg})`: replace the binding of `n` if present,
otherwise append it. -/
def dictUpdate : List (String × Logger) → String → Logger → List (String × Logger)
  | [], n, lg => [(n, lg)]
  | (k, v) :: rest, n, lg =>
      if k = n then (k, lg) :: rest else (k, v) :: dictUpdate rest n lg

/-- `dict.get(n)`: look a name up in `_logger_list`. -/
def lookupLogger : List (String × Logger) → String → Option Logger
  | [], _ => none
  | (k, v) :: rest, n => if k = n then some v else lookupLogger rest n

/-- The `for name in logger_name` loop of `__new__`: `logging.getLogger`
returns the logger already created for the name when there is one (so a
repeated name receives a second set of handlers), otherwise a fresh one;
the loop then attaches handlers and stores the logger in `_logger_list`. -/
def addLoggers (console : Bool) : List String → List (String × Logger) → List (String × Logger)
  | [], acc => acc
  | n :: rest, acc =>
      let lg := match lookupLogger acc n with
        | some old => { old with handlers := old.handlers ++ mkHandlers n console }
        | none => { name := n, handlers := mkHandlers n console }
      addLoggers console rest (dictUpdate acc n lg)

/-- `CustomerLogger.__new__` (lines 15-50): on the first call create the
singleton and register a logger per name; on every later call return the
existing instance unchanged, ignoring the arguments. -/
def new (names : List String) (console : Bool) (st : RegistryState) : RegistryState :=
  if st.instanceCreated then st
  else { instanceCreated := true, loggerList := addLoggers console names st.loggerList }

/-- Runtime values passed to and returned from wrapped functions, with
just the shapes the repository's code exercises. -/
inductive Value
  | int (n : Int)
  | str (s : String)
  | noneV
deriving DecidableEq, Repr

/-- Python `str()` of a value, as used by the f-strings in `wrapper`. -/
def pyStr : Value → String
  | .int n => toString n
  | .str s => s
  | .noneV => "None"

/-- A Python exception as observed by the wrapper: its class name and its
`str(e)` message. -/
structure PyExc where
  kind : String
  msg : String
deriving DecidableEq, Repr

/-- A declared parameter: its name and its default value when it has one. -/
structure Param where
  name : String
  default : Option Value
deriving DecidableEq, Repr

/-- What one invocation of the wrapped function's body does: return a
value, or raise an exception (the runtime also yields the traceback text
that `traceback.format_exc()` would render). -/
inductive FuncOutcome
  | ret (v : Value)
  | exc (e : PyExc) (tb : String)
deriving DecidableEq, Repr

/-- A Python function as the decorator sees it: `__name__`, the declared
signature, and its behaviour as a function of the bound arguments. -/
structure Func where
  name : String
  params : List Param
  body : List (String × Value) → FuncOutcome

/-- Look a key up in the keyword-argument mapping. -/
def lookupKw : List (String × Value) → String → Option Value
  | [], _ => none
  | (k, v) :: rest, n => if k = n then some v else lookupKw rest n

/-- Remove a key from the keyword-argument mapping. -/
def removeKw : List (String × Value) → String → List (String × Value)
  | [], _ => []
  | (k, v) :: rest, n => if k = n then removeKw rest n else (k, v) :: removeKw rest n

/-- `inspect.signature(func).bind(*args, **kwargs)` followed by
`apply_defaults()` for positional-or-keyword parameters: positional
values fill parameters in order, remaining parameters are filled from
keywords or their declared default, and the binding errors (`TypeError`)
on too many positionals, a repeated parameter, a missing required
parameter, or a leftover keyword. The result is the `arguments` mapping
in declaration order. -/
def bindArgs : List Param → List Value → List (String × Value) →
    Except PyExc (List (String × Value))
  | [], [], kw =>
      if kw.isEmpty then .ok []
      else .error ⟨"TypeError", "got an unexpected keyword argument"⟩
  | [], _ :: _, _ => .error ⟨"TypeError", "too many positional arguments"⟩
  | p :: ps, v :: vs, kw =>
      match lookupKw kw p.name with
      | some _ => .error ⟨"TypeError", "multiple values for argument " ++ p.name⟩
      | none => (bindArgs ps vs kw).map (fun rest => (p.name, v) :: rest)
  | p :: ps, [], kw =>
      match lookupKw kw p.name with
      | some v => (bindArgs ps [] (removeKw kw p.name)).map
          (fun rest => (p.name, v) :: rest)
      | none =>
        match p.default with
        | some d => (bindArgs ps [] kw).map (fun rest => (p.name, d) :: rest)
        | none => .error ⟨"TypeError", "missing a required argument: " ++ p.name⟩

/-- A log record as handed to the handlers: its level and message text. -/
structure Emit where
  level : Level
  msg : String
deriving DecidableEq, Repr

/-- The outcome a caller of the wrapped function observes. -/
inductive CallOutcome
  | ok (v : Value)
  | err (e : PyExc)
deriving DecidableEq, Repr

/-- Everything one call through `wrapper` does: the outcome seen by the
caller, the records emitted, the (sink, record) deliveries, and whether
the wrapped function's body ran. -/
structure WrapResult where
  outcome : CallOutcome
  emitted : List Emit
  written : List (Sink × Emit)
  invoked : Bool

/-- Which sinks one record reaches: those handlers whose level, and the
logger's current level, are at most the record's level. -/
def dispatch (lg : Logger) (cur : Level) (r : Emit) : List (Sink × Emit) :=
  (lg.handlers.filter
    (fun h => decide (cur.toNat ≤ r.level.toNat) && decide (h.level.toNat ≤ r.level.toNat))).map
    (fun h => (h.sink, r))

/-- Dispatch a list of records in order. -/
def dispatchAll (lg : Logger) (cur : Level) : List Emit → List (Sink × Emit)
  | [] => []
  | r :: rest => dispatch lg cur r ++ dispatchAll lg cur rest

/-- The `AttributeError` raised by `logger.setLevel(...)` when
`_logger_list.get(logger_name)` returned `None`. -/
def noneSetLevelExc : PyExc :=
  ⟨"AttributeError", "'NoneType' object has no attribute 'setLevel'"⟩

/-- The info records of the success path (lines 72-81), in emission
order: function name with duration, the `Arguments:` header, one record
per bound argument, the result, and the optional extra message (logged
only when `to_log` is truthy, i.e. present and non-empty). -/
def successRecords (fname elapsedStr : String) (funcArgs : List (String × Value))
    (result : Value) (toLog : Option String) : List Emit :=
  [⟨.info, "Calling function: " ++ fname ++ " | Execution time: " ++ elapsedStr ++ " seconds"⟩,
   ⟨.info, "Arguments:"⟩] ++
  funcArgs.map (fun a => ⟨.info, a.1 ++ ": " ++ pyStr a.2⟩) ++
  [⟨.info, "Result: " ++ pyStr result⟩] ++
  (match toLog with
   | some s => if s = "" then [] else [⟨.info, "Additinal message: " ++ s⟩]
   | none => [])

/-- The error records of the exception path (lines 85-90), in emission
order: function name, the exception text, the `Arguments:` header, one
record per bound argument, and the traceback. -/
def errorRecords (fname : String) (funcArgs : List (String × Value))
    (e : PyExc) (tb : String) : List Emit :=
  [⟨.error, "Calling function: " ++ fname⟩,
   ⟨.error, "Exception: " ++ e.msg⟩,
   ⟨.error, "Arguments:"⟩] ++
  funcArgs.map (fun a => ⟨.error, a.1 ++ ": " ++ pyStr a.2⟩) ++
  [⟨.error, "Traceback: " ++ tb⟩]

/-- One call through `wrapper` (lines 57-93). `_logger_list.get` is
consulted first; a `None` logger makes `setLevel` raise before anything
else happens. Then the signature is bound outside the `try` block, so a
binding failure propagates without a log record and without running the
function. Otherwise the function runs; on a normal return the info
records are dispatched with the logger at level INFO, on an exception the
error records are dispatched with the logger at level ERROR and the same
exception is re-raised. `elapsedStr` stands for the formatted wall-clock
duration the runtime measured. -/
def wrapperRun (st : RegistryState) (loggerName : String) (toLog : Option String)
    (f : Func) (pos : List Value) (kw : List (String × Value))
    (elapsedStr : String) : WrapResult :=
  match lookupLogger st.loggerList loggerName with
  | none => ⟨.err noneSetLevelExc, [], [], false⟩
  | some lg =>
    match bindArgs f.params pos kw with
    | .error e => ⟨.err e, [], [], false⟩
    | .ok funcArgs =>
      match f.body funcArgs with
      | .ret result =>
          let recs := successRecords f.name elapsedStr funcArgs result toLog
          ⟨.ok result, recs, dispatchAll lg .info recs, true⟩
      | .exc e tb =>
          let recs := errorRecords f.name funcArgs e tb
          ⟨.err e, recs, dispatchAll lg .error recs, true⟩

/-- A digit character; inputs above nine cannot arise from the `% 10`
projections below and are clamped. -/
def digitChar : Nat → Char
  | 0 => '0'
  | 1 => '1'
  | 2 => '2'
  | 3 => '3'
  | 4 => '4'
  | 5 => '5'
  | 6 => '6'
  | 7 => '7'
  | 8 => '8'
  | _ => '9'

/-- Is the character one of `0`-`9`? -/
def isDigitChar (c : Char) : Bool := 48 ≤ c.toNat && c.toNat ≤ 57

/-- `%02d`-style zero-padded rendering of a two-digit field. -/
def pad2 (n : Nat) : List Char := [digitChar (n / 10 % 10), digitChar (n % 10)]

/-- `%Y`-style zero-padded rendering of the four-digit year. -/
def pad4 (n : Nat) : List Char :=
  [digitChar (n / 1000 % 10), digitChar (n / 100 % 10),
   digitChar (n / 10 % 10), digitChar (n % 10)]

/-- The wall-clock fields that `%(asctime)s` renders with
`datefmt='%Y-%m-%d %H:%M:%S'`. -/
structure Timestamp where
  year : Nat
  month : Nat
  day : Nat
  hour : Nat
  minute : Nat
  second : Nat
deriving DecidableEq, Repr

/-- The characters of the rendered timestamp. -/
def Timestamp.renderChars (t : Timestamp) : List Char :=
  pad4 t.year ++ ['-'] ++ pad2 t.month ++ ['-'] ++ pad2 t.day ++ [' '] ++
  pad2 t.hour ++ [':'] ++ pad2 t.minute ++ [':'] ++ pad2 t.second

/-- The rendered `asctime` text. -/
def Timestamp.render (t : Timestamp) : String := String.mk t.renderChars

/-- The fixed formatter of `__new__` (line 25):
`'[%(asctime)s] [%(levelname)s] %(message)s'`. -/
def formatRecord (ts : Timestamp) (r : Emit) : String :=
  "[" ++ ts.render ++ "] [" ++ r.level.levelname ++ "] " ++ r.msg

/-- The text of a formatted record up to its first newline: the first
line it contributes to the log file. -/
def firstLine (s : String) : String :=
  String.mk (s.toList.takeWhile (fun c => !(c == '\n')))

/-- Split a character stream into its lines. -/
def splitLinesChars : List Char → List (List Char)
  | [] => [[]]
  | c :: rest =>
      let r := splitLinesChars rest
      if c = '\n' then [] :: r
      else
        match r with
        | h :: t => (c :: h) :: t
        | [] => [[c]]

/-- The lines of a piece of log-file text. -/
def splitLines (s : String) : List String :=
  (splitLinesChars s.toList).map String.mk

/-- Strip an expected sequence of characters off the front of a stream. -/
def stripLit : List Char → List Char → Option (List Char)
  | [], l => some l
  | _ :: _, [] => none
  | p :: ps, c :: cs => if c == p then stripLit ps cs else none

/-- The message payload of the regex: `.+$`, i.e. at least one character
and no newline. -/
def msgOk (l : List Char) : Bool := !l.isEmpty && l.all (fun c => !(c == '\n'))

/-- After the timestamp: `\[(INFO|ERROR)\] ` followed by the payload. -/
def levelMsgShape (l : List Char) : Bool :=
  match stripLit ['[', 'I', 'N', 'F', 'O', ']', ' '] l with
  | some rest => msgOk rest
  | none =>
    match stripLit ['[', 'E', 'R', 'R', 'O', 'R', ']', ' '] l with
    | some rest => msgOk rest
    | none => false

/-- The regex `^\[\d{4}-\d{2}-\d{2} \d{2}:\d{2}:\d{2}\] \[(INFO|ERROR)\] .+$`
as a character-level check. -/
def lineShape (l : List Char) : Bool :=
  match l with
  | lb :: y1 :: y2 :: y3 :: y4 :: q1 :: o1 :: o2 :: q2 :: a1 :: a2 :: q3 ::
      h1 :: h2 :: q4 :: n1 :: n2 :: q5 :: e1 :: e2 :: rb :: sp :: rest =>
      (lb == '[') && isDigitChar y1 && isDigitChar y2 && isDigitChar y3 && isDigitChar y4 &&
      (q1 == '-') && isDigitChar o1 && isDigitChar o2 && (q2 == '-') &&
      isDigitChar a1 && isDigitChar a2 && (q3 == ' ') &&
      isDigitChar h1 && isDigitChar h2 && (q4 == ':') &&
      isDigitChar n1 && isDigitChar n2 && (q5 == ':') &&
      isDigitChar e1 && isDigitChar e2 && (rb == ']') && (sp == ' ') &&
      levelMsgShape rest
  | _ => false

/-- Does a line match the spec's fixed line-format regex? -/
def matchesLineFormat (s : String) : Bool := lineShape s.toList

/-! Concrete instances used by witnesses and counterexamples, following
the spec's scenario: logger name `svc`, `add(x, y)` and `div(x, y)`. -/

/-- The registry after `CustomerLogger(["svc"], console=False)` in a
fresh process. -/
def stEx : RegistryState := new ["svc"] false freshState

/-- `def add(x, y): return x + y`. -/
def addFunc : Func :=
  ⟨"add", [⟨"x", none⟩, ⟨"y", none⟩],
   fun args =>
     match lookupKw args "x", lookupKw args "y" with
     | some (.int a), some (.int b) => .ret (.int (a + b))
     | _, _ => .exc ⟨"TypeError", "unsupported operand type(s)"⟩ "tb"⟩

/-- A representative `traceback.format_exc()` text for the division
example: always multi-line. -/
def tbEx : String :=
  "Traceback (most recent call last):\n  File \"main.py\", line 7, in wrapper\nZeroDivisionError: division by zero\n"

/-- `def div(x, y): return x / y`, raising `ZeroDivisionError` on a zero
divisor. -/
def divFunc : Func :=
  ⟨"div", [⟨"x", none⟩, ⟨"y", none⟩],
   fun args =>
     match lookupKw args "x", lookupKw args "y" with
     | some (.int a), some (.int b) =>
         if b = 0 then .exc ⟨"ZeroDivisionError", "division by zero"⟩ tbEx
         else .ret (.int (a / b))
     | _, _ => .exc ⟨"TypeError", "unsupported operand type(s)"⟩ "tb"⟩

/-- `def f(a, b, c=3): return a + b + c`, the spec's argument-fidelity
example. -/
def fdefFunc : Func :=
  ⟨"f", [⟨"a", none⟩, ⟨"b", none⟩, ⟨"c", some (.int 3)⟩],
   fun args =>
     match lookupKw args "a", lookupKw args "b", lookupKw args "c" with
     | some (.int a), some (.int b), some (.int c) => .ret (.int (a + b + c))
     | _, _, _ => .exc ⟨"TypeError", "unsupported operand type(s)"⟩ "tb"⟩

/-- The traced call `div(1, 0)` under logger `svc`. -/
def runDiv : WrapResult := wrapperRun stEx "svc" none divFunc [.int 1, .int 0] [] "0.0002"

/-- The traced call `add(2, 3)` under logger `svc`. -/
def runAdd : WrapResult := wrapperRun stEx "svc" none addFunc [.int 2, .int 3] [] "0.0001"

/-- A concrete wall-clock time. -/
def tsEx : Timestamp := ⟨2026, 10, 12, 9, 0, 1⟩

/-! ### Helper lemmas about the registry -/

/-- Looking a name up after a `dict.update`. -/
theorem lookupLogger_dictUpdate (l : List (String × Logger)) (n m : String) (lg : Logger) :
    lookupLogger (dictUpdate l n lg) m = if m = n then some lg else lookupLogger l m := by
  induction l with
  | nil =>
    by_cases hm : m = n
    · subst hm; simp [dictUpdate, lookupLogger]
    · have h2 : ¬ n = m := fun e => hm e.symm
      simp [dictUpdate, lookupLogger, hm, h2]
  | cons kv rest ih =>
    obtain ⟨k, v⟩ := kv
    by_cases hk : k = n
    · subst hk
      by_cases hm : m = k
      · subst hm; simp [dictUpdate, lookupLogger]
      · have h2 : ¬ k = m := fun e => hm e.symm
        simp [dictUpdate, lookupLogger, hm, h2]
    · by_cases hkm : k = m
      · subst hkm
        have h2 : ¬ k = n := hk
        simp [dictUpdate, lookupLogger, h2]
      · simp [dictUpdate, lookupLogger, hk, hkm, ih]

/-- `addLoggers` leaves names it was not given untouched. -/
theorem lookupLogger_addLoggers_notMem (c : Bool) (names : List String)
    (acc : List (String × Logger)) (n : String) (h : n ∉ names) :
    lookupLogger (addLoggers c names acc) n = lookupLogger acc n := by
  induction names generalizing acc with
  | nil => rfl
  | cons m rest ih =>
    have hnm : n ≠ m := fun e => h (e ▸ List.mem_cons_self _ _)
    have hnr : n ∉ rest := fun hr => h (List.mem_cons_of_mem _ hr)
    simp only [addLoggers]
    rw [ih _ hnr, lookupLogger_dictUpdate]
    simp [hnm]

/-- After the loop of `__new__`, each name given once maps to a fresh
logger carrying exactly its two file handlers (and console handler). -/
theorem lookupLogger_addLoggers_mem (c : Bool) (names : List String)
    (acc : List (String × Logger)) (n : String)
    (hnd : names.Nodup) (hmem : n ∈ names)
    (hacc : ∀ m ∈ names, lookupLogger acc m = none) :
    lookupLogger (addLoggers c names acc) n = some ⟨n, mkHandlers n c⟩ := by
  induction names generalizing acc with
  | nil => cases hmem
  | cons m rest ih =>
    have hm0 : lookupLogger acc m = none := hacc m (List.mem_cons_self _ _)
    have hndr := (List.nodup_cons.mp hnd).2
    have hmr := (List.nodup_cons.mp hnd).1
    simp only [addLoggers, hm0]
    rcases List.mem_cons.mp hmem with he | hr
    · subst he
      rw [lookupLogger_addLoggers_notMem _ _ _ _ hmr, lookupLogger_dictUpdate]
      simp
    · refine ih _ hndr hr ?_
      intro m' hm'
      rw [lookupLogger_dictUpdate]
      have hne : ¬ m' = m := fun e => hmr (e ▸ hm')
      simp [hne, hacc m' (List.mem_cons_of_mem _ hm')]

/-- In a fresh process, the first construction registers each (distinct)
requested name with its handlers. -/
theorem new_registered (names : List String) (c : Bool) (n : String)
    (hnd : names.Nodup) (hmem : n ∈ names) :
    lookupLogger (new names c freshState).loggerList n = some ⟨n, mkHandlers n c⟩ := by
  simp only [new, freshState, Bool.false_eq_true, if_false]
  exact lookupLogger_addLoggers_mem c names [] n hnd hmem (fun _ _ => rfl)

/-- In a fresh process, a name not passed to the first construction is
not registered. -/
theorem new_unregistered (names : List String) (c : Bool) (n : String) (h : n ∉ names) :
    lookupLogger (new names c freshState).loggerList n = none := by
  simp only [new, freshState, Bool.false_eq_true, if_false]
  rw [lookupLogger_addLoggers_notMem _ _ _ _ h]
  rfl

/-! ### Helper lemmas about binding, records and dispatch -/

/-- An `Except.map` that errored came from an error. -/
theorem except_map_error {α β γ : Type} (f : α → β) (x : Except γ α) (e : γ)
    (h : x.map f = .error e) : x = .error e := by
  cases x with
  | error e2 => simpa [Except.map] using h
  | ok v => simp [Except.map] at h

/-- An `Except.map` that succeeded came from a success. -/
theorem except_map_ok {α β γ : Type} (f : α → β) (x : Except γ α) (b : β)
    (h : x.map f = .ok b) : ∃ a, x = .ok a ∧ b = f a := by
  cases x with
  | error e2 => simp [Except.map] at h
  | ok v => exact ⟨v, rfl, by simpa [Except.map] using h.symm⟩

/-- Every binding failure is a `TypeError`, as `Signature.bind` raises. -/
theorem bindArgs_error_kind : ∀ (ps : List Param) (pos : List Value)
    (kw : List (String × Value)) (e : PyExc),
    bindArgs ps pos kw = .error e → e.kind = "TypeError" := by
  intro ps
  induction ps with
  | nil =>
    intro pos kw e h
    cases pos with
    | nil =>
      by_cases hk : kw.isEmpty
      · simp [bindArgs, hk] at h
      · simp [bindArgs, hk] at h
        simp [← h]
    | cons v vs =>
      simp [bindArgs] at h
      simp [← h]
  | cons p ps ih =>
    intro pos kw e h
    cases pos with
    | cons v vs =>
      simp only [bindArgs] at h
      cases hlk : lookupKw kw p.name with
      | some w => simp [hlk] at h; simp [← h]
      | none =>
        simp only [hlk] at h
        exact ih vs kw e (except_map_error _ _ _ h)
    | nil =>
      simp only [bindArgs] at h
      cases hlk : lookupKw kw p.name with
      | some w =>
        simp only [hlk] at h
        exact ih [] (removeKw kw p.name) e (except_map_error _ _ _ h)
      | none =>
        cases hd : p.default with
        | some d =>
          simp only [hlk, hd] at h
          exact ih [] kw e (except_map_error _ _ _ h)
        | none =>
          simp [hlk, hd] at h
          simp [← h]

/-- A successful binding lists exactly the declared parameter names, in
declaration order. -/
theorem bindArgs_names : ∀ (ps : List Param) (pos : List Value)
    (kw : List (String × Value)) (l : List (String × Value)),
    bindArgs ps pos kw = .ok l → l.map Prod.fst = ps.map Param.name := by
  intro ps
  induction ps with
  | nil =>
    intro pos kw l h
    cases pos with
    | nil =>
      by_cases hk : kw.isEmpty <;> simp [bindArgs, hk] at h
      simp [← h]
    | cons v vs => simp [bindArgs] at h
  | cons p ps ih =>
    intro pos kw l h
    cases pos with
    | cons v vs =>
      simp only [bindArgs] at h
      cases hlk : lookupKw kw p.name with
      | some w => simp [hlk] at h
      | none =>
        simp only [hlk] at h
        obtain ⟨rest, hrest, hl⟩ := except_map_ok _ _ _ h
        subst hl
        simp [ih vs kw rest hrest]
    | nil =>
      simp only [bindArgs] at h
      cases hlk : lookupKw kw p.name with
      | some w =>
        simp only [hlk] at h
        obtain ⟨rest, hrest, hl⟩ := except_map_ok _ _ _ h
        subst hl
        simp [ih [] (removeKw kw p.name) rest hrest]
      | none =>
        cases hd : p.default with
        | some d =>
          simp only [hlk, hd] at h
          obtain ⟨rest, hrest, hl⟩ := except_map_ok _ _ _ h
          subst hl
          simp [ih [] kw rest hrest]
        | none => simp [hlk, hd] at h

/-- The per-argument records all carry the level they were emitted at. -/
theorem level_of_mem_argRecords (lvl : Level) (funcArgs : List (String × Value)) (r : Emit)
    (hr : r ∈ funcArgs.map (fun a => (⟨lvl, a.1 ++ ": " ++ pyStr a.2⟩ : Emit))) :
    r.level = lvl := by
  obtain ⟨a, _, he⟩ := List.mem_map.mp hr
  rw [← he]

/-- Every record of the success path is at info level. -/
theorem successRecords_level (fname elapsedStr : String) (funcArgs : List (String × Value))
    (result : Value) (toLog : Option String) (r : Emit)
    (hr : r ∈ successRecords fname elapsedStr funcArgs result toLog) : r.level = .info := by
  unfold successRecords at hr
  rcases List.mem_append.mp hr with hr | hr
  · rcases List.mem_append.mp hr with hr | hr
    · rcases List.mem_append.mp hr with hr | hr
      · simp only [List.mem_cons, List.not_mem_nil, or_false] at hr
        rcases hr with hr | hr <;> rw [hr]
      · exact level_of_mem_argRecords _ _ _ hr
    · simp only [List.mem_cons, List.not_mem_nil, or_false] at hr
      rw [hr]
  · cases toLog with
    | none => simp at hr
    | some s =>
      have hr2 : r ∈ (if s = "" then ([] : List Emit)
          else [⟨.info, "Additinal message: " ++ s⟩]) := hr
      by_cases hs : s = ""
      · rw [if_pos hs] at hr2; simp at hr2
      · rw [if_neg hs] at hr2
        simp only [List.mem_cons, List.not_mem_nil, or_false] at hr2
        rw [hr2]

/-- Every record of the exception path is at error level. -/
theorem errorRecords_level (fname : String) (funcArgs : List (String × Value))
    (e : PyExc) (tb : String) (r : Emit)
    (hr : r ∈ errorRecords fname funcArgs e tb) : r.level = .error := by
  unfold errorRecords at hr
  rcases List.mem_append.mp hr with hr | hr
  · rcases List.mem_append.mp hr with hr | hr
    · simp only [List.mem_cons, List.not_mem_nil, or_false] at hr
      rcases hr with hr | hr | hr <;> rw [hr]
    · exact level_of_mem_argRecords _ _ _ hr
  · simp only [List.mem_cons, List.not_mem_nil, or_false] at hr
    rw [hr]

/-- Membership through `dispatchAll`. -/
theorem mem_dispatchAll (lg : Logger) (cur : Level) (p : Sink × Emit) :
    ∀ recs : List Emit, p ∈ dispatchAll lg cur recs ↔ ∃ r ∈ recs, p ∈ dispatch lg cur r := by
  intro recs
  induction recs with
  | nil => simp [dispatchAll]
  | cons r rest ih => simp [dispatchAll, ih]

/-- Membership through `dispatch`. -/
theorem mem_dispatch (lg : Logger) (cur : Level) (r : Emit) (p : Sink × Emit) :
    p ∈ dispatch lg cur r ↔ ∃ h ∈ lg.handlers,
      (decide (cur.toNat ≤ r.level.toNat) && decide (h.level.toNat ≤ r.level.toNat)) = true ∧
      p = (h.sink, r) := by
  simp only [dispatch, List.mem_map, List.mem_filter]
  constructor
  · rintro ⟨h, ⟨h1, h2⟩, h3⟩; exact ⟨h, h1, h2, h3.symm⟩
  · rintro ⟨h, h1, h2, h3⟩; exact ⟨h, ⟨h1, h2⟩, h3.symm⟩

/-- An error-level record reaches both file handlers of a logger built by
`__new__`. -/
theorem dispatch_error_files (n : String) (c : Bool) (r : Emit) (hr : r.level = .error) :
    (Sink.file ("log/" ++ n ++ "_info.log"), r) ∈ dispatch ⟨n, mkHandlers n c⟩ .error r ∧
    (Sink.file ("log/" ++ n ++ "_error.log"), r) ∈ dispatch ⟨n, mkHandlers n c⟩ .error r := by
  constructor <;>
  · rw [mem_dispatch]
    first
    | exact ⟨⟨Sink.file ("log/" ++ n ++ "_info.log"), Level.info⟩,
        by simp [mkHandlers], by simp [hr, Level.toNat], rfl⟩
    | exact ⟨⟨Sink.file ("log/" ++ n ++ "_error.log"), Level.error⟩,
        by simp [mkHandlers], by simp [hr, Level.toNat], rfl⟩

/-- The two file-handler paths of one logger differ. -/
theorem infoPath_ne_errPath (n : String) :
    ("log/" ++ n ++ "_info.log") ≠ ("log/" ++ n ++ "_error.log") := by
  intro h
  have hlen := congrArg String.length h
  simp [String.length_append] at hlen
  exact absurd hlen (by decide)

/-! ### Claim theorems -/

/-- Claim C3: construction of the registry is idempotent — for every pair
of calls to `__new__`, the second call (even with a different name set or
console flag) returns the same instance/state as the first: it registers
no new loggers and attaches no new handlers; only the first call's names
and configuration take effect. -/
theorem new_idempotent (names1 names2 : List String) (c1 c2 : Bool) (st : RegistryState) :
    new names2 c2 (new names1 c1 st) = new names1 c1 st := by
  by_cases h : st.instanceCreated
  · simp [new, h]
  · simp [new, h]

/-- Claim C1: for a registered logger name and a call whose arguments
bind and whose function returns normally, the wrapped call returns
exactly the function's value (and the function did run): the decorator
does not change the success outcome. -/
theorem wrapper_noninterference (st : RegistryState) (loggerName : String)
    (toLog : Option String) (f : Func) (pos : List Value) (kw : List (String × Value))
    (elapsedStr : String) (lg : Logger) (funcArgs : List (String × Value)) (v : Value)
    (hreg : lookupLogger st.loggerList loggerName = some lg)
    (hbind : bindArgs f.params pos kw = .ok funcArgs)
    (hret : f.body funcArgs = .ret v) :
    (wrapperRun st loggerName toLog f pos kw elapsedStr).outcome = .ok v ∧
    (wrapperRun st loggerName toLog f pos kw elapsedStr).invoked = true := by
  simp [wrapperRun, hreg, hbind, hret]

/-- Witness for C1: `add(2, 3)` traced under `svc` returns `5`. -/
theorem wrapper_noninterference_witness :
    lookupLogger stEx.loggerList "svc" = some ⟨"svc", mkHandlers "svc" false⟩ ∧
    bindArgs addFunc.params [.int 2, .int 3] [] = .ok [("x", .int 2), ("y", .int 3)] ∧
    addFunc.body [("x", .int 2), ("y", .int 3)] = .ret (.int 5) ∧
    ((wrapperRun stEx "svc" none addFunc [.int 2, .int 3] [] "0.0001").outcome = .ok (.int 5) ∧
     (wrapperRun stEx "svc" none addFunc [.int 2, .int 3] [] "0.0001").invoked = true) :=
  ⟨rfl, rfl, rfl,
   wrapper_noninterference stEx "svc" none addFunc [.int 2, .int 3] [] "0.0001"
     ⟨"svc", mkHandlers "svc" false⟩ [("x", .int 2), ("y", .int 3)] (.int 5) rfl rfl rfl⟩

/-- Claim C4: a wrapped call naming a logger never passed to the first
construction fails (the `NoneType.setLevel` `AttributeError` realises the
spec's `NotFoundError`), the error propagates, no fallback logger is
used, the wrapped function is not invoked and nothing is logged. -/
theorem wrapper_unregistered (names : List String) (c : Bool) (n : String)
    (toLog : Option String) (f : Func) (pos : List Value) (kw : List (String × Value))
    (elapsedStr : String) (h : n ∉ names) :
    wrapperRun (new names c freshState) n toLog f pos kw elapsedStr =
      ⟨.err noneSetLevelExc, [], [], false⟩ := by
  have hl := new_unregistered names c n h
  simp [wrapperRun, hl]

/-- Witness for C4: calling through the unregistered name `other`. -/
theorem wrapper_unregistered_witness :
    "other" ∉ ["svc"] ∧
    wrapperRun (new ["svc"] false freshState) "other" none addFunc [.int 2, .int 3] [] "0.0001" =
      ⟨.err noneSetLevelExc, [], [], false⟩ :=
  ⟨by decide, wrapper_unregistered ["svc"] false "other" none addFunc [.int 2, .int 3] []
    "0.0001" (by decide)⟩

/-- Claim C10: when the supplied arguments cannot be bound to the
declared signature, the wrapper raises the binding `TypeError` before
invoking the function and before emitting any record. -/
theorem wrapper_bind_failure (st : RegistryState) (loggerName : String)
    (toLog : Option String) (f : Func) (pos : List Value) (kw : List (String × Value))
    (elapsedStr : String) (lg : Logger) (e : PyExc)
    (hreg : lookupLogger st.loggerList loggerName = some lg)
    (hbind : bindArgs f.params pos kw = .error e) :
    wrapperRun st loggerName toLog f pos kw elapsedStr = ⟨.err e, [], [], false⟩ ∧
    e.kind = "TypeError" := by
  constructor
  · simp [wrapperRun, hreg, hbind]
  · exact bindArgs_error_kind _ _ _ _ hbind

/-- Witness for C10: `add(2)` cannot bind (`y` is missing). -/
theorem wrapper_bind_failure_witness :
    lookupLogger stEx.loggerList "svc" = some ⟨"svc", mkHandlers "svc" false⟩ ∧
    bindArgs addFunc.params [.int 2] [] =
      .error ⟨"TypeError", "missing a required argument: y"⟩ ∧
    (wrapperRun stEx "svc" none addFunc [.int 2] [] "0.0001" =
       ⟨.err ⟨"TypeError", "missing a required argument: y"⟩, [], [], false⟩ ∧
     PyExc.kind ⟨"TypeError", "missing a required argument: y"⟩ = "TypeError") :=
  ⟨rfl, rfl,
   wrapper_bind_failure stEx "svc" none addFunc [.int 2] [] "0.0001"
     ⟨"svc", mkHandlers "svc" false⟩ ⟨"TypeError", "missing a required argument: y"⟩ rfl rfl⟩

/-- Claim C7: success-path and error-path emissions are mutually
exclusive — when the wrapped function raises, every record emitted for
that call is at error level, so no info-level success records appear. -/
theorem no_success_records_on_exception (st : RegistryState) (loggerName : String)
    (toLog : Option String) (f : Func) (pos : List Value) (kw : List (String × Value))
    (elapsedStr : String) (lg : Logger) (funcArgs : List (String × Value))
    (e : PyExc) (tb : String)
    (hreg : lookupLogger st.loggerList loggerName = some lg)
    (hbind : bindArgs f.params pos kw = .ok funcArgs)
    (hexc : f.body funcArgs = .exc e tb) :
    ∀ r ∈ (wrapperRun st loggerName toLog f pos kw elapsedStr).emitted, r.level = .error := by
  intro r hr
  simp only [wrapperRun, hreg, hbind, hexc] at hr
  exact errorRecords_level _ _ _ _ _ hr

/-- Witness for C7: the first record of the traced `div(1, 0)` call. -/
theorem no_success_records_on_exception_witness :
    lookupLogger stEx.loggerList "svc" = some ⟨"svc", mkHandlers "svc" false⟩ ∧
    bindArgs divFunc.params [.int 1, .int 0] [] = .ok [("x", .int 1), ("y", .int 0)] ∧
    divFunc.body [("x", .int 1), ("y", .int 0)] =
      .exc ⟨"ZeroDivisionError", "division by zero"⟩ tbEx ∧
    Emit.level ⟨.error, "Calling function: div"⟩ = .error :=
  ⟨rfl, rfl, rfl,
   no_success_records_on_exception stEx "svc" none divFunc [.int 1, .int 0] [] "0.0002"
     ⟨"svc", mkHandlers "svc" false⟩ [("x", .int 1), ("y", .int 0)]
     ⟨"ZeroDivisionError", "division by zero"⟩ tbEx rfl rfl rfl
     ⟨.error, "Calling function: div"⟩ (by decide)⟩

/-- Claim C2: when the wrapped function raises, the wrapped call raises
the very same exception (same kind, same message, never swallowed), and
an error-level record is delivered to `log/<name>_error.log`. -/
theorem exception_transparency (names : List String) (c : Bool) (n : String)
    (toLog : Option String) (f : Func) (pos : List Value) (kw : List (String × Value))
    (elapsedStr : String) (funcArgs : List (String × Value)) (e : PyExc) (tb : String)
    (hnd : names.Nodup) (hmem : n ∈ names)
    (hbind : bindArgs f.params pos kw = .ok funcArgs)
    (hexc : f.body funcArgs = .exc e tb) :
    (wrapperRun (new names c freshState) n toLog f pos kw elapsedStr).outcome = .err e ∧
    ∃ r, r.level = .error ∧
      (Sink.file ("log/" ++ n ++ "_error.log"), r) ∈
        (wrapperRun (new names c freshState) n toLog f pos kw elapsedStr).written := by
  have hreg := new_registered names c n hnd hmem
  constructor
  · simp [wrapperRun, hreg, hbind, hexc]
  · refine ⟨⟨.error, "Calling function: " ++ f.name⟩, rfl, ?_⟩
    simp only [wrapperRun, hreg, hbind, hexc]
    rw [mem_dispatchAll]
    refine ⟨⟨.error, "Calling function: " ++ f.name⟩, ?_, ?_⟩
    · unfold errorRecords
      simp
    · exact (dispatch_error_files n c _ rfl).2

/-- Witness for C2: the traced `div(1, 0)` call re-raises
`ZeroDivisionError` and writes to `log/svc_error.log`. -/
theorem exception_transparency_witness :
    (["svc"] : List String).Nodup ∧ "svc" ∈ ["svc"] ∧
    bindArgs divFunc.params [.int 1, .int 0] [] = .ok [("x", .int 1), ("y", .int 0)] ∧
    divFunc.body [("x", .int 1), ("y", .int 0)] =
      .exc ⟨"ZeroDivisionError", "division by zero"⟩ tbEx ∧
    ((wrapperRun (new ["svc"] false freshState) "svc" none divFunc [.int 1, .int 0] []
        "0.0002").outcome = .err ⟨"ZeroDivisionError", "division by zero"⟩ ∧
     ∃ r, r.level = .error ∧
       (Sink.file ("log/" ++ "svc" ++ "_error.log"), r) ∈
         (wrapperRun (new ["svc"] false freshState) "svc" none divFunc [.int 1, .int 0] []
           "0.0002").written) :=
  ⟨by decide, by decide, rfl, rfl,
   exception_transparency ["svc"] false "svc" none divFunc [.int 1, .int 0] [] "0.0002"
     [("x", .int 1), ("y", .int 0)] ⟨"ZeroDivisionError", "division by zero"⟩ tbEx
     (by decide) (by decide) rfl rfl⟩

/-- Claim C5: on a normal return the info records are, in order, the
function name with its duration, the `Arguments:` header, one `name:
value` record per bound argument in declaration order with defaults
applied, the result's string representation, and — only when the extra
message was supplied (and non-empty) — one record carrying it. -/
theorem success_records_shape (st : RegistryState) (loggerName : String)
    (toLog : Option String) (f : Func) (pos : List Value) (kw : List (String × Value))
    (elapsedStr : String) (lg : Logger) (funcArgs : List (String × Value)) (v : Value)
    (hreg : lookupLogger st.loggerList loggerName = some lg)
    (hbind : bindArgs f.params pos kw = .ok funcArgs)
    (hret : f.body funcArgs = .ret v) :
    (wrapperRun st loggerName toLog f pos kw elapsedStr).emitted =
      [⟨.info, "Calling function: " ++ f.name ++ " | Execution time: " ++ elapsedStr ++
          " seconds"⟩,
       ⟨.info, "Arguments:"⟩] ++
      funcArgs.map (fun a => ⟨.info, a.1 ++ ": " ++ pyStr a.2⟩) ++
      [⟨.info, "Result: " ++ pyStr v⟩] ++
      (match toLog with
       | some s => if s = "" then [] else [⟨.info, "Additinal message: " ++ s⟩]
       | none => []) ∧
    funcArgs.map Prod.fst = f.params.map Param.name := by
  constructor
  · simp [wrapperRun, hreg, hbind, hret, successRecords]
  · exact bindArgs_names _ _ _ _ hbind

/-- Witness for C5: `f(a, b, c=3)` called with `(1, 2)` logs `a: 1`,
`b: 2`, `c: 3` in declaration order, with the default applied. -/
theorem success_records_shape_witness :
    lookupLogger stEx.loggerList "svc" = some ⟨"svc", mkHandlers "svc" false⟩ ∧
    bindArgs fdefFunc.params [.int 1, .int 2] [] =
      .ok [("a", .int 1), ("b", .int 2), ("c", .int 3)] ∧
    fdefFunc.body [("a", .int 1), ("b", .int 2), ("c", .int 3)] = .ret (.int 6) ∧
    ((wrapperRun stEx "svc" (some "checked") fdefFunc [.int 1, .int 2] [] "0.0003").emitted =
       [⟨.info, "Calling function: f | Execution time: 0.0003 seconds"⟩,
        ⟨.info, "Arguments:"⟩, ⟨.info, "a: 1"⟩, ⟨.info, "b: 2"⟩, ⟨.info, "c: 3"⟩,
        ⟨.info, "Result: 6"⟩, ⟨.info, "Additinal message: checked"⟩] ∧
     [("a", Value.int 1), ("b", Value.int 2), ("c", Value.int 3)].map Prod.fst =
       fdefFunc.params.map Param.name) :=
  ⟨rfl, rfl, rfl,
   success_records_shape stEx "svc" (some "checked") fdefFunc [.int 1, .int 2] [] "0.0003"
     ⟨"svc", mkHandlers "svc" false⟩ [("a", .int 1), ("b", .int 2), ("c", .int 3)] (.int 6)
     rfl rfl rfl⟩

/-- Claim C6 as stated is false: in the emitted error records the
exception's text comes second, before the `Arguments:` header, not after
the argument records as the claim orders them. Concretely for
`div(1, 0)`. -/
theorem error_order_counterexample :
    runDiv.emitted.map Emit.msg =
      ["Calling function: div", "Exception: division by zero", "Arguments:",
       "x: 1", "y: 0", "Traceback: " ++ tbEx] ∧
    runDiv.emitted.map Emit.msg ≠
      ["Calling function: div", "Arguments:", "x: 1", "y: 0",
       "Exception: division by zero", "Traceback: " ++ tbEx] := by
  constructor
  · rfl
  · decide

/-- Claim C6 (amended): on an exception the error records are, in order,
the function name, the exception's string representation, the
`Arguments:` header, one `name: value` record per bound argument, and the
stack trace as a single (multi-line) record. -/
theorem error_records_shape (st : RegistryState) (loggerName : String)
    (toLog : Option String) (f : Func) (pos : List Value) (kw : List (String × Value))
    (elapsedStr : String) (lg : Logger) (funcArgs : List (String × Value))
    (e : PyExc) (tb : String)
    (hreg : lookupLogger st.loggerList loggerName = some lg)
    (hbind : bindArgs f.params pos kw = .ok funcArgs)
    (hexc : f.body funcArgs = .exc e tb) :
    (wrapperRun st loggerName toLog f pos kw elapsedStr).emitted =
      [⟨.error, "Calling function: " ++ f.name⟩,
       ⟨.error, "Exception: " ++ e.msg⟩,
       ⟨.error, "Arguments:"⟩] ++
      funcArgs.map (fun a => ⟨.error, a.1 ++ ": " ++ pyStr a.2⟩) ++
      [⟨.error, "Traceback: " ++ tb⟩] := by
  simp [wrapperRun, hreg, hbind, hexc, errorRecords]

/-- Witness for the amended C6: the records of the traced `div(1, 0)`. -/
theorem error_records_shape_witness :
    lookupLogger stEx.loggerList "svc" = some ⟨"svc", mkHandlers "svc" false⟩ ∧
    bindArgs divFunc.params [.int 1, .int 0] [] = .ok [("x", .int 1), ("y", .int 0)] ∧
    divFunc.body [("x", .int 1), ("y", .int 0)] =
      .exc ⟨"ZeroDivisionError", "division by zero"⟩ tbEx ∧
    runDiv.emitted =
      [⟨.error, "Calling function: div"⟩,
       ⟨.error, "Exception: division by zero"⟩,
       ⟨.error, "Arguments:"⟩, ⟨.error, "x: 1"⟩, ⟨.error, "y: 0"⟩,
       ⟨.error, "Traceback: " ++ tbEx⟩] :=
  ⟨rfl, rfl, rfl,
   error_records_shape stEx "svc" none divFunc [.int 1, .int 0] [] "0.0002"
     ⟨"svc", mkHandlers "svc" false⟩ [("x", .int 1), ("y", .int 0)]
     ⟨"ZeroDivisionError", "division by zero"⟩ tbEx rfl rfl rfl⟩

/-- The handlers created for a name are exactly the two file handlers
and, optionally, the console handler. -/
theorem mem_mkHandlers (n : String) (c : Bool) (h : Handler) (hh : h ∈ mkHandlers n c) :
    h = ⟨Sink.file ("log/" ++ n ++ "_info.log"), Level.info⟩ ∨
    h = ⟨Sink.file ("log/" ++ n ++ "_error.log"), Level.error⟩ ∨
    h = ⟨Sink.console, Level.debug⟩ := by
  unfold mkHandlers at hh
  rcases List.mem_append.mp hh with h1 | h1
  · simp only [List.mem_cons, List.not_mem_nil, or_false] at h1
    tauto
  · by_cases hc : c
    · rw [if_pos hc] at h1
      simp only [List.mem_cons, List.not_mem_nil, or_false] at h1
      tauto
    · rw [if_neg hc] at h1
      simp at h1

/-- Claim C9: for a registered logger, every record emitted at error
level is written both to `log/<name>_info.log` (its handler accepts INFO
and above) and to `log/<name>_error.log`, while the error file receives
error-level records only, never info-level ones. -/
theorem level_routing (names : List String) (c : Bool) (n : String)
    (toLog : Option String) (f : Func) (pos : List Value) (kw : List (String × Value))
    (elapsedStr : String) (hnd : names.Nodup) (hmem : n ∈ names) :
    (∀ r ∈ (wrapperRun (new names c freshState) n toLog f pos kw elapsedStr).emitted,
       r.level = .error →
       (Sink.file ("log/" ++ n ++ "_info.log"), r) ∈
         (wrapperRun (new names c freshState) n toLog f pos kw elapsedStr).written ∧
       (Sink.file ("log/" ++ n ++ "_error.log"), r) ∈
         (wrapperRun (new names c freshState) n toLog f pos kw elapsedStr).written) ∧
    (∀ r : Emit, (Sink.file ("log/" ++ n ++ "_error.log"), r) ∈
         (wrapperRun (new names c freshState) n toLog f pos kw elapsedStr).written →
       r.level = .error) := by
  have hreg := new_registered names c n hnd hmem
  cases hb : bindArgs f.params pos kw with
  | error e =>
    constructor
    · intro r hr
      simp [wrapperRun, hreg, hb] at hr
    · intro r hr
      simp [wrapperRun, hreg, hb] at hr
  | ok funcArgs =>
    cases hf : f.body funcArgs with
    | ret v =>
      constructor
      · intro r hr hlev
        have hinfo : r.level = .info := successRecords_level f.name elapsedStr funcArgs v
          toLog r (by simpa [wrapperRun, hreg, hb, hf] using hr)
        rw [hinfo] at hlev
        exact absurd hlev (by decide)
      · intro r hr
        simp only [wrapperRun, hreg, hb, hf] at hr
        rw [mem_dispatchAll] at hr
        obtain ⟨r2, hr2, hd⟩ := hr
        rw [mem_dispatch] at hd
        obtain ⟨h, hh, hcond, heq⟩ := hd
        have hlv : r2.level = .info := successRecords_level _ _ _ _ _ _ hr2
        have hs : Sink.file ("log/" ++ n ++ "_error.log") = h.sink :=
          congrArg Prod.fst heq
        rcases mem_mkHandlers n c h hh with h3 | h3 | h3
        · rw [h3] at hs
          exact absurd (Sink.file.inj hs).symm (infoPath_ne_errPath n)
        · rw [h3] at hcond
          simp [hlv, Level.toNat] at hcond
        · rw [h3] at hs
          exact absurd hs (by simp)
    | exc e tb =>
      constructor
      · intro r hr hlev
        simp only [wrapperRun, hreg, hb, hf] at hr ⊢
        constructor
        · exact (mem_dispatchAll _ _ _ _).mpr ⟨r, hr, (dispatch_error_files n c r hlev).1⟩
        · exact (mem_dispatchAll _ _ _ _).mpr ⟨r, hr, (dispatch_error_files n c r hlev).2⟩
      · intro r hr
        simp only [wrapperRun, hreg, hb, hf] at hr
        rw [mem_dispatchAll] at hr
        obtain ⟨r2, hr2, hd⟩ := hr
        rw [mem_dispatch] at hd
        obtain ⟨h, hh, hcond, heq⟩ := hd
        have hrr : r = r2 := congrArg Prod.snd heq
        rw [hrr]
        exact errorRecords_level _ _ _ _ _ hr2

/-- Witness for C9: the traced `div(1, 0)` call delivers its first error
record to both `log/svc_info.log` and `log/svc_error.log`. -/
theorem level_routing_witness :
    (["svc"] : List String).Nodup ∧ "svc" ∈ ["svc"] ∧
    ((Sink.file ("log/" ++ "svc" ++ "_info.log"),
        (⟨.error, "Calling function: div"⟩ : Emit)) ∈ runDiv.written ∧
     (Sink.file ("log/" ++ "svc" ++ "_error.log"),
        (⟨.error, "Calling function: div"⟩ : Emit)) ∈ runDiv.written) :=
  ⟨by decide, by decide,
   (level_routing ["svc"] false "svc" none divFunc [.int 1, .int 0] [] "0.0002"
       (by decide) (by decide)).1
     ⟨.error, "Calling function: div"⟩ (by decide) rfl⟩

/-! ### Helper lemmas for the line-format property -/

/-- `toList` distributes over string append. -/
theorem toList_append (s t : String) : (s ++ t).toList = s.toList ++ t.toList := rfl

/-- `toList` of `String.mk` is the underlying list. -/
theorem toList_mk (l : List Char) : (String.mk l).toList = l := rfl

/-- `digitChar` always yields a decimal digit. -/
theorem isDigitChar_digitChar (n : Nat) : isDigitChar (digitChar n) = true := by
  unfold digitChar
  split <;> decide

/-- A decimal digit is not a newline. -/
theorem digitChar_ne_nl (n : Nat) : (digitChar n == '\n') = false := by
  unfold digitChar
  split <;> decide

/-- `takeWhile` passes over a block that satisfies the predicate. -/
theorem takeWhile_append_all {α : Type} (p : α → Bool) (l1 l2 : List α)
    (h : ∀ c ∈ l1, p c = true) :
    (l1 ++ l2).takeWhile p = l1 ++ l2.takeWhile p := by
  induction l1 with
  | nil => simp
  | cons c cs ih =>
    simp [List.takeWhile_cons, h c (List.mem_cons_self _ _),
      ih (fun x hx => h x (List.mem_cons_of_mem _ hx))]

/-- Characters kept by `takeWhile` satisfy the predicate. -/
theorem mem_takeWhile_sat {α : Type} (p : α → Bool) (l : List α) (x : α)
    (hx : x ∈ l.takeWhile p) : p x = true := by
  induction l with
  | nil => simp [List.takeWhile] at hx
  | cons c cs ih =>
    rw [List.takeWhile_cons] at hx
    by_cases hc : p c = true
    · simp only [hc, if_true] at hx
      rcases List.mem_cons.mp hx with rfl | hx
      · exact hc
      · exact ih hx
    · simp [hc] at hx

/-- The payload check holds for a non-empty newline-free head followed by
characters kept by `takeWhile`. -/
theorem msgOk_good (p t : List Char) (hp : p ≠ [])
    (hnl : ∀ c ∈ p, (c == '\n') = false) :
    msgOk (p ++ t.takeWhile (fun c => !(c == '\n'))) = true := by
  unfold msgOk
  cases p with
  | nil => exact absurd rfl hp
  | cons c cs =>
    simp only [List.cons_append, List.isEmpty_cons, Bool.not_false, Bool.true_and]
    rw [List.all_eq_true]
    intro x hx
    rcases List.mem_cons.mp hx with rfl | hx
    · simp [hnl x (List.mem_cons_self _ _)]
    · rcases List.mem_append.mp hx with hx | hx
      · simp [hnl x (List.mem_cons_of_mem _ hx)]
      · exact mem_takeWhile_sat (fun c => !(c == '\n')) t x hx

/-- Stripping the INFO tag off an INFO-tagged stream. -/
theorem stripLit_info_self (m : List Char) :
    stripLit ['[', 'I', 'N', 'F', 'O', ']', ' ']
      ('[' :: 'I' :: 'N' :: 'F' :: 'O' :: ']' :: ' ' :: m) = some m := rfl

/-- Stripping the ERROR tag off an ERROR-tagged stream. -/
theorem stripLit_err_self (m : List Char) :
    stripLit ['[', 'E', 'R', 'R', 'O', 'R', ']', ' ']
      ('[' :: 'E' :: 'R' :: 'R' :: 'O' :: 'R' :: ']' :: ' ' :: m) = some m := rfl

/-- The INFO tag does not strip off an ERROR-tagged stream. -/
theorem stripLit_info_on_err (m : List Char) :
    stripLit ['[', 'I', 'N', 'F', 'O', ']', ' ']
      ('[' :: 'E' :: 'R' :: 'R' :: 'O' :: 'R' :: ']' :: ' ' :: m) = none := rfl

/-- A rendered timestamp, a level tag of INFO or ERROR, and a valid
payload assemble into a line matching the format regex. -/
theorem lineShape_render (ts : Timestamp) (lvl : Level)
    (hlvl : lvl = .info ∨ lvl = .error) (m : List Char) (hm : msgOk m = true) :
    lineShape ('[' :: (ts.renderChars ++
      (']' :: ' ' :: '[' :: (lvl.levelname.toList ++ (']' :: ' ' :: m))))) = true := by
  obtain ⟨y, mo, d, hh, mi, s⟩ := ts
  rcases hlvl with rfl | rfl <;>
    simp [Timestamp.renderChars, pad4, pad2, Level.levelname, lineShape, levelMsgShape,
      stripLit_info_self, stripLit_err_self, stripLit_info_on_err,
      isDigitChar_digitChar, hm]

/-- The opening bracket's characters. -/
theorem toList_lb : ("[" : String).toList = ['['] := rfl

/-- The characters between timestamp and level. -/
theorem toList_mid : ("] [" : String).toList = [']', ' ', '['] := rfl

/-- The characters between level and message. -/
theorem toList_rsp : ("] " : String).toList = [']', ' '] := rfl

/-- A two-digit field contains no newline. -/
theorem pad2_no_nl (n : Nat) : ∀ c ∈ pad2 n, (c == '\n') = false := by
  intro c hc
  rcases List.mem_cons.mp hc with rfl | hc
  · exact digitChar_ne_nl _
  rcases List.mem_cons.mp hc with rfl | hc
  · exact digitChar_ne_nl _
  simp at hc

/-- A four-digit field contains no newline. -/
theorem pad4_no_nl (n : Nat) : ∀ c ∈ pad4 n, (c == '\n') = false := by
  intro c hc
  rcases List.mem_cons.mp hc with rfl | hc
  · exact digitChar_ne_nl _
  rcases List.mem_cons.mp hc with rfl | hc
  · exact digitChar_ne_nl _
  rcases List.mem_cons.mp hc with rfl | hc
  · exact digitChar_ne_nl _
  rcases List.mem_cons.mp hc with rfl | hc
  · exact digitChar_ne_nl _
  simp at hc

/-- The rendered timestamp contains no newline. -/
theorem renderChars_no_nl (ts : Timestamp) : ∀ c ∈ ts.renderChars, (c == '\n') = false := by
  have H : ∀ (a b : List Char), (∀ c ∈ a, (c == '\n') = false) →
      (∀ c ∈ b, (c == '\n') = false) → ∀ c ∈ a ++ b, (c == '\n') = false :=
    fun a b ha hb c hc => (List.mem_append.mp hc).elim (ha c) (hb c)
  have hdash : ∀ c ∈ ['-'], (c == '\n') = false := by decide
  have hsp : ∀ c ∈ [' '], (c == '\n') = false := by decide
  have hcol : ∀ c ∈ [':'], (c == '\n') = false := by decide
  unfold Timestamp.renderChars
  exact H _ _ (H _ _ (H _ _ (H _ _ (H _ _ (H _ _ (H _ _ (H _ _ (H _ _ (H _ _
    (pad4_no_nl ts.year) hdash) (pad2_no_nl ts.month)) hdash) (pad2_no_nl ts.day)) hsp)
    (pad2_no_nl ts.hour)) hcol) (pad2_no_nl ts.minute)) hcol) (pad2_no_nl ts.second)

/-- The first line of a formatted record whose message starts with a
non-empty newline-free block matches the line-format regex. -/
theorem matches_firstLine (ts : Timestamp) (lvl : Level)
    (hlvl : lvl = .info ∨ lvl = .error) (msg : String) (p t : List Char)
    (hm : msg.toList = p ++ t) (hp : p ≠ [])
    (hnl : ∀ c ∈ p, (c == '\n') = false) :
    matchesLineFormat (firstLine (formatRecord ts ⟨lvl, msg⟩)) = true := by
  have hlvlchars : ∀ c ∈ lvl.levelname.toList, (c == '\n') = false := by
    rcases hlvl with rfl | rfl <;> decide
  have hfix : ∀ c ∈ '[' :: (ts.renderChars ++
      (']' :: ' ' :: '[' :: (lvl.levelname.toList ++ (']' :: ' ' :: p)))),
      (c == '\n') = false := by
    intro c hc
    rcases List.mem_cons.mp hc with rfl | hc
    · decide
    rcases List.mem_append.mp hc with hc | hc
    · exact renderChars_no_nl ts c hc
    rcases List.mem_cons.mp hc with rfl | hc
    · decide
    rcases List.mem_cons.mp hc with rfl | hc
    · decide
    rcases List.mem_cons.mp hc with rfl | hc
    · decide
    rcases List.mem_append.mp hc with hc | hc
    · exact hlvlchars c hc
    rcases List.mem_cons.mp hc with rfl | hc
    · decide
    rcases List.mem_cons.mp hc with rfl | hc
    · decide
    exact hnl c hc
  have hfix2 : ∀ c ∈ '[' :: (ts.renderChars ++
      (']' :: ' ' :: '[' :: (lvl.levelname.toList ++ (']' :: ' ' :: p)))),
      (fun c => !(c == '\n')) c = true := fun c hc => by
    simp only [hfix c hc, Bool.not_false]
  have hmd : msg.data = p ++ t := hm
  have hflat : (formatRecord ts ⟨lvl, msg⟩).toList =
      ('[' :: (ts.renderChars ++ (']' :: ' ' :: '[' ::
        (lvl.levelname.toList ++ (']' :: ' ' :: p))))) ++ t := by
    simp [formatRecord, toList_append, Timestamp.render, toList_mk, toList_lb, toList_mid,
      toList_rsp, hmd, List.append_assoc]
  unfold matchesLineFormat firstLine
  rw [toList_mk, hflat, takeWhile_append_all _ _ _ hfix2]
  have hshape : ('[' :: (ts.renderChars ++ (']' :: ' ' :: '[' ::
      (lvl.levelname.toList ++ (']' :: ' ' :: p))))) ++
        t.takeWhile (fun c => !(c == '\n')) =
      '[' :: (ts.renderChars ++ (']' :: ' ' :: '[' :: (lvl.levelname.toList ++
        (']' :: ' ' :: (p ++ t.takeWhile (fun c => !(c == '\n'))))))) := by
    simp [List.append_assoc]
  rw [hshape]
  exact lineShape_render ts lvl hlvl _ (msgOk_good p t hp hnl)

/-- String append is associative. -/
theorem stringAppend_assoc (a b c : String) : (a ++ b) ++ c = a ++ (b ++ c) :=
  congrArg String.mk (List.append_assoc a.data b.data c.data)

/-- The characters of the argument-record separator. -/
theorem toList_colon : (": " : String).toList = [':', ' '] := rfl

/-- Specialisation of `matches_firstLine` to a message of the form
`head ++ rest` with a fixed non-empty newline-free head. -/
theorem matches_firstLine_lit (ts : Timestamp) (lvl : Level)
    (hlvl : lvl = .info ∨ lvl = .error) (head rest : String)
    (hh : head.toList ≠ []) (hnl : ∀ c ∈ head.toList, (c == '\n') = false) :
    matchesLineFormat (firstLine (formatRecord ts ⟨lvl, head ++ rest⟩)) = true :=
  matches_firstLine ts lvl hlvl (head ++ rest) head.toList rest.toList
    (toList_append _ _) hh hnl

/-- Every delivered record is one of the emitted records. -/
theorem written_record_emitted (st : RegistryState) (loggerName : String)
    (toLog : Option String) (f : Func) (pos : List Value) (kw : List (String × Value))
    (elapsedStr : String) (s : Sink) (r : Emit)
    (h : (s, r) ∈ (wrapperRun st loggerName toLog f pos kw elapsedStr).written) :
    r ∈ (wrapperRun st loggerName toLog f pos kw elapsedStr).emitted := by
  cases hl : lookupLogger st.loggerList loggerName with
  | none => simp [wrapperRun, hl] at h
  | some lg =>
    cases hb : bindArgs f.params pos kw with
    | error e => simp [wrapperRun, hl, hb] at h
    | ok funcArgs =>
      cases hf : f.body funcArgs with
      | ret v =>
        simp only [wrapperRun, hl, hb, hf] at h ⊢
        rw [mem_dispatchAll] at h
        obtain ⟨r2, hr2, hd⟩ := h
        rw [mem_dispatch] at hd
        obtain ⟨hh, _, _, heq⟩ := hd
        have hr3 : r = r2 := congrArg Prod.snd heq
        rw [hr3]
        exact hr2
      | exc e tb =>
        simp only [wrapperRun, hl, hb, hf] at h ⊢
        rw [mem_dispatchAll] at h
        obtain ⟨r2, hr2, hd⟩ := h
        rw [mem_dispatch] at hd
        obtain ⟨hh, _, _, heq⟩ := hd
        have hr3 : r = r2 := congrArg Prod.snd heq
        rw [hr3]
        exact hr2

/-- Claim C8 as stated is false: the traceback record of a failing call
is a single multi-line record, and its continuation lines do not carry
the `[timestamp] [level]` prefix, so not every emitted line matches the
format regex. Concretely for the traced `div(1, 0)` call. -/
theorem line_format_counterexample :
    (⟨.error, "Traceback: " ++ tbEx⟩ : Emit) ∈ runDiv.emitted ∧
    (splitLines (formatRecord tsEx ⟨.error, "Traceback: " ++ tbEx⟩)).getD 1 "" =
      "  File \"main.py\", line 7, in wrapper" ∧
    matchesLineFormat
      ((splitLines (formatRecord tsEx ⟨.error, "Traceback: " ++ tbEx⟩)).getD 1 "") =
      false := by
  refine ⟨by decide, by decide, by decide⟩

/-- Claim C8 (amended): every record emitted by a wrapped call — and so
every record delivered to any sink — is formatted as
`[YYYY-MM-DD HH:MM:SS] [INFO|ERROR] message`, and the first line of its
formatted text matches the format regex; only the continuation lines of
the multi-line traceback record lack the prefix. Parameter names are
Python identifiers, hence newline-free. -/
theorem emitted_record_format (st : RegistryState) (loggerName : String)
    (toLog : Option String) (f : Func) (pos : List Value) (kw : List (String × Value))
    (elapsedStr : String) (ts : Timestamp)
    (hnames : ∀ q ∈ f.params, ∀ c ∈ (Param.name q).toList, (c == '\n') = false) :
    (∀ r ∈ (wrapperRun st loggerName toLog f pos kw elapsedStr).emitted,
       matchesLineFormat (firstLine (formatRecord ts r)) = true) ∧
    (∀ pr ∈ (wrapperRun st loggerName toLog f pos kw elapsedStr).written,
       matchesLineFormat (firstLine (formatRecord ts pr.2)) = true) := by
  have hmain : ∀ r ∈ (wrapperRun st loggerName toLog f pos kw elapsedStr).emitted,
      matchesLineFormat (firstLine (formatRecord ts r)) = true := by
    intro r hr
    cases hl : lookupLogger st.loggerList loggerName with
    | none => simp [wrapperRun, hl] at hr
    | some lg =>
      cases hb : bindArgs f.params pos kw with
      | error e => simp [wrapperRun, hl, hb] at hr
      | ok funcArgs =>
        have hargn : ∀ a ∈ funcArgs, ∀ c ∈ (Prod.fst a).toList, (c == '\n') = false := by
          intro a ha
          have hnames2 := bindArgs_names _ _ _ _ hb
          have h1 : a.1 ∈ f.params.map Param.name := by
            rw [← hnames2]
            exact List.mem_map_of_mem _ ha
          obtain ⟨q, hq, he⟩ := List.mem_map.mp h1
          rw [← he]
          exact hnames q hq
        have hargcase : ∀ (lvl : Level), lvl = .info ∨ lvl = .error →
            ∀ a ∈ funcArgs,
            matchesLineFormat (firstLine (formatRecord ts
              ⟨lvl, a.1 ++ ": " ++ pyStr a.2⟩)) = true := by
          intro lvl hlvl a ha
          refine matches_firstLine ts lvl hlvl _ ((a.1 ++ ": ").toList)
            ((pyStr a.2).toList) (toList_append _ _) ?_ ?_
          · rw [toList_append, toList_colon]
            simp
          · intro c hc
            rw [toList_append, toList_colon] at hc
            rcases List.mem_append.mp hc with hc2 | hc2
            · exact hargn a ha c hc2
            · rcases List.mem_cons.mp hc2 with rfl | hc2
              · decide
              rcases List.mem_cons.mp hc2 with rfl | hc2
              · decide
              simp at hc2
        cases hf : f.body funcArgs with
        | ret v =>
          simp only [wrapperRun, hl, hb, hf] at hr
          unfold successRecords at hr
          rcases List.mem_append.mp hr with hr | hr
          · rcases List.mem_append.mp hr with hr | hr
            · rcases List.mem_append.mp hr with hr | hr
              · simp only [List.mem_cons, List.not_mem_nil, or_false] at hr
                rcases hr with rfl | rfl
                · rw [show "Calling function: " ++ f.name ++ " | Execution time: " ++
                      elapsedStr ++ " seconds" = "Calling function: " ++ (f.name ++
                      (" | Execution time: " ++ (elapsedStr ++ " seconds"))) from by
                    rw [stringAppend_assoc, stringAppend_assoc, stringAppend_assoc]]
                  exact matches_firstLine_lit ts .info (Or.inl rfl) _ _
                    (by decide) (by decide)
                · exact matches_firstLine ts .info (Or.inl rfl) _ "Arguments:".toList []
                    (by simp) (by decide) (by decide)
              · obtain ⟨a, ha, he⟩ := List.mem_map.mp hr
                rw [← he]
                exact hargcase .info (Or.inl rfl) a ha
            · simp only [List.mem_cons, List.not_mem_nil, or_false] at hr
              rw [hr]
              exact matches_firstLine_lit ts .info (Or.inl rfl) "Result: " (pyStr v)
                (by decide) (by decide)
          · cases toLog with
            | none => simp at hr
            | some s =>
              have hr2 : r ∈ (if s = "" then ([] : List Emit)
                  else [⟨.info, "Additinal message: " ++ s⟩]) := hr
              by_cases hs : s = ""
              · rw [if_pos hs] at hr2
                simp at hr2
              · rw [if_neg hs] at hr2
                simp only [List.mem_cons, List.not_mem_nil, or_false] at hr2
                rw [hr2]
                exact matches_firstLine_lit ts .info (Or.inl rfl) "Additinal message: " s
                  (by decide) (by decide)
        | exc e tb =>
          simp only [wrapperRun, hl, hb, hf] at hr
          unfold errorRecords at hr
          rcases List.mem_append.mp hr with hr | hr
          · rcases List.mem_append.mp hr with hr | hr
            · simp only [List.mem_cons, List.not_mem_nil, or_false] at hr
              rcases hr with rfl | rfl | rfl
              · exact matches_firstLine_lit ts .error (Or.inr rfl) "Calling function: "
                  f.name (by decide) (by decide)
              · exact matches_firstLine_lit ts .error (Or.inr rfl) "Exception: " e.msg
                  (by decide) (by decide)
              · exact matches_firstLine ts .error (Or.inr rfl) _ "Arguments:".toList []
                  (by simp) (by decide) (by decide)
            · obtain ⟨a, ha, he⟩ := List.mem_map.mp hr
              rw [← he]
              exact hargcase .error (Or.inr rfl) a ha
          · simp only [List.mem_cons, List.not_mem_nil, or_false] at hr
            rw [hr]
            exact matches_firstLine_lit ts .error (Or.inr rfl) "Traceback: " tb
              (by decide) (by decide)
  refine ⟨hmain, ?_⟩
  intro pr hpr
  exact hmain pr.2
    (written_record_emitted st loggerName toLog f pos kw elapsedStr pr.1 pr.2 hpr)

/-- Witness for the amended C8: the result record of the traced
`add(2, 3)` call formats to a matching first line. -/
theorem emitted_record_format_witness :
    (∀ q ∈ addFunc.params, ∀ c ∈ (Param.name q).toList, (c == '\n') = false) ∧
    matchesLineFormat (firstLine (formatRecord tsEx ⟨.info, "Result: 5"⟩)) = true :=
  ⟨by decide,
   (emitted_record_format stEx "svc" none addFunc [.int 2, .int 3] [] "0.0001" tsEx
      (by decide)).1 ⟨.info, "Result: 5"⟩ (by decide)⟩

end CustomerLogger
